import Mathlib

/-!
Shallow embedding of the wayfire geometry and toplevel-state core
(src/api/wayfire/geometry.hpp and the toplevel header).

Coordinates are C `int` / `int32_t`; the code performs plain signed
arithmetic with no overflow handling (signed overflow is undefined
behaviour in C++), so they are modelled as unbounded `Int`.
Edge bitmasks (`uint32_t` of WLR_EDGE_* flags) are modelled as `Nat`
with bitwise `&&&` tests, exactly as the code tests them.
-/

namespace wf

/-- C++ `wf::point_t`: integer 2D point. -/
structure point_t where
  x : Int
  y : Int
deriving DecidableEq, Repr

/-- C++ `wf::dimensions_t`: an integer size. -/
structure dimensions_t where
  width : Int
  height : Int
deriving DecidableEq, Repr

/-- C++ `wf::geometry_t` (= `wlr_box`): origin plus size. -/
structure geometry_t where
  x : Int
  y : Int
  width : Int
  height : Int
deriving DecidableEq, Repr

/-- C++ `wf::rectangle_t`: corner form; `(x1, y1)` inclusive top-left,
`(x2, y2)` one past the bottom-right. -/
structure rectangle_t where
  x1 : Int
  y1 : Int
  x2 : Int
  y2 : Int
deriving DecidableEq, Repr

/-- The converting constructor `rectangle_t(geometry_t g)`:
`x1 = g.x, y1 = g.y, x2 = g.x + g.width, y2 = g.y + g.height`. -/
def rectangle_t.ofGeometry (g : geometry_t) : rectangle_t :=
  ⟨g.x, g.y, g.x + g.width, g.y + g.height⟩

/-- The conversion `operator geometry_t()` of `rectangle_t`:
returns `{x1, y1, x2 - x1, y2 - y1}`. -/
def rectangle_t.toGeometry (r : rectangle_t) : geometry_t :=
  ⟨r.x1, r.y1, r.x2 - r.x1, r.y2 - r.y1⟩

/-- C++ `wf::geometry_difference_t`: an outwards displacement of the four
edges of a box (fields in declaration order: left, right, bottom, top). -/
structure geometry_difference_t where
  left : Int
  right : Int
  bottom : Int
  top : Int
deriving DecidableEq, Repr

/-- The zero displacement, the C++ value-initialized `{}`. -/
def geometry_difference_t.zero : geometry_difference_t := ⟨0, 0, 0, 0⟩

/-- C++ `operator+(geometry_t const& g, geometry_difference_t const& m)`:
`{g.x - m.left, g.y - m.top, g.width + m.left + m.right, g.height + m.top + m.bottom}`.
The spec calls this `box_add`. -/
def box_add (g : geometry_t) (m : geometry_difference_t) : geometry_t :=
  ⟨g.x - m.left, g.y - m.top, g.width + m.left + m.right, g.height + m.top + m.bottom⟩

/-- C++ `operator-(geometry_t const& g, geometry_difference_t const& m)`:
`{g.x + m.left, g.y + m.top, g.width - m.left - m.right, g.height - m.top - m.bottom}`. -/
def box_sub_difference (g : geometry_t) (m : geometry_difference_t) : geometry_t :=
  ⟨g.x + m.left, g.y + m.top, g.width - m.left - m.right, g.height - m.top - m.bottom⟩

/-- C++ `operator-(geometry_t const& to, geometry_t const& from)`:
`{.left = from.x - to.x, .right = to.x + to.width - (from.x + from.width),
  .bottom = to.y + to.height - (from.y + from.height), .top = from.y - to.y}`.
The spec calls this `box_subtract`. -/
def box_subtract (tog fromg : geometry_t) : geometry_difference_t :=
  ⟨fromg.x - tog.x, tog.x + tog.width - (fromg.x + fromg.width),
   tog.y + tog.height - (fromg.y + fromg.height), fromg.y - tog.y⟩

/-- C++ unary `operator-(geometry_difference_t const& delta)`: negates all
four displacements. The spec calls this `negate`. -/
def negate (delta : geometry_difference_t) : geometry_difference_t :=
  ⟨-delta.left, -delta.right, -delta.bottom, -delta.top⟩

/-- wlroots `WLR_EDGE_TOP` (1 shl 0). -/
def WLR_EDGE_TOP : Nat := 1

/-- wlroots `WLR_EDGE_BOTTOM` (1 shl 1). -/
def WLR_EDGE_BOTTOM : Nat := 2

/-- wlroots `WLR_EDGE_LEFT` (1 shl 2). -/
def WLR_EDGE_LEFT : Nat := 4

/-- wlroots `WLR_EDGE_RIGHT` (1 shl 3). -/
def WLR_EDGE_RIGHT : Nat := 8

/-- C++ `expand_geometry_if(geometry_in, tiled_edges, tiled_edge_delta, delta)`
(the last parameter defaults to `{}` at call sites): converts to corner form,
then on each edge subtracts/adds `tiled_edge_delta`'s value when the edge's
bit is set in `tiled_edges` and `delta`'s value otherwise, and converts back. -/
def expand_geometry_if (geometry_in : geometry_t) (tiled_edges : Nat)
    (tiled_edge_delta : geometry_difference_t)
    (delta : geometry_difference_t) : geometry_t :=
  let r := rectangle_t.ofGeometry geometry_in
  let r := { r with x1 := r.x1 -
    (if tiled_edges &&& WLR_EDGE_LEFT ≠ 0 then tiled_edge_delta.left else delta.left) }
  let r := { r with y1 := r.y1 -
    (if tiled_edges &&& WLR_EDGE_TOP ≠ 0 then tiled_edge_delta.top else delta.top) }
  let r := { r with x2 := r.x2 +
    (if tiled_edges &&& WLR_EDGE_RIGHT ≠ 0 then tiled_edge_delta.right else delta.right) }
  let r := { r with y2 := r.y2 +
    (if tiled_edges &&& WLR_EDGE_BOTTOM ≠ 0 then tiled_edge_delta.bottom else delta.bottom) }
  r.toGeometry

/-- Modelled from the spec: the header `wayfire/maximization.hpp` defining
`maximization_t` is not among the sources. Per the spec, maximization is one
of none / horizontal / vertical / full, a pure function of the edge bitmask
(horizontal = left and right tiled, vertical = top and bottom, full = all
four). -/
inductive maximization_t
  | fnone
  | horizontal
  | vertical
  | full
deriving DecidableEq, Repr

/-- Modelled from the spec: `maximization_t::as_tiled_edges()` converts the
maximization state back to the corresponding WLR_EDGE_* bitmask. -/
def maximization_t.as_tiled_edges : maximization_t → Nat
  | .fnone => 0
  | .horizontal => WLR_EDGE_LEFT ||| WLR_EDGE_RIGHT
  | .vertical => WLR_EDGE_TOP ||| WLR_EDGE_BOTTOM
  | .full => WLR_EDGE_LEFT ||| WLR_EDGE_RIGHT ||| WLR_EDGE_TOP ||| WLR_EDGE_BOTTOM

/-- C++ `expand_geometry_by_margins(geometry, margins, maximization)`:
`expand_geometry_if(geometry, maximization.as_tiled_edges(), {}, margins)`.
Expands by the margins except in the maximized directions. -/
def expand_geometry_by_margins (geometry : geometry_t)
    (margins : geometry_difference_t) (maximization : maximization_t) : geometry_t :=
  expand_geometry_if geometry maximization.as_tiled_edges
    geometry_difference_t.zero margins

/-- C++ `shrink_geometry_by_margins(geometry, margins, maximization)`:
`expand_geometry_if(geometry, maximization.as_tiled_edges(), {}, -margins)`.
The same as expand, but with negated margins. -/
def shrink_geometry_by_margins (geometry : geometry_t)
    (margins : geometry_difference_t) (maximization : maximization_t) : geometry_t :=
  expand_geometry_if geometry maximization.as_tiled_edges
    geometry_difference_t.zero (negate margins)

/-- Modelled from the spec: `geometry_intersection` is only declared in
geometry.hpp; its definition (geometry.cpp) is not among the sources. Per the
spec it returns the overlapping region, and when the boxes do not overlap it
returns a box with zero width and height (the origin of the non-overlap
result is unspecified; the model uses zero). -/
def geometry_intersection (r1 r2 : geometry_t) : geometry_t :=
  let x1 := max r1.x r2.x
  let y1 := max r1.y r2.y
  let x2 := min (r1.x + r1.width) (r2.x + r2.width)
  let y2 := min (r1.y + r1.height) (r2.y + r2.height)
  if x1 < x2 ∧ y1 < y2 then ⟨x1, y1, x2 - x1, y2 - y1⟩ else ⟨0, 0, 0, 0⟩

/-- Modelled from the spec: `operator&(geometry_t, geometry_t)` ("the two
geometries have a common point") is only declared in geometry.hpp. Per the
spec, overlap tests are half-open and a box of zero width or height
intersects nothing. -/
def geometry_overlaps (a b : geometry_t) : Prop :=
  max a.x b.x < min (a.x + a.width) (b.x + b.width) ∧
  max a.y b.y < min (a.y + a.height) (b.y + b.height)

instance (a b : geometry_t) : Decidable (geometry_overlaps a b) := by
  unfold geometry_overlaps; infer_instance

/-- Containment of one box in another (half-open extents). -/
def contains_box (outer inner : geometry_t) : Prop :=
  outer.x ≤ inner.x ∧ inner.x + inner.width ≤ outer.x + outer.width ∧
  outer.y ≤ inner.y ∧ inner.y + inner.height ≤ outer.y + outer.height

instance (outer inner : geometry_t) : Decidable (contains_box outer inner) := by
  unfold contains_box; infer_instance

/-- C++ `wf::toplevel_state_t` (decoration_margins_t = geometry_difference_t):
the per-copy window state record, with the member initializers of the source
reflected in `toplevel_state_t.init` below. -/
structure toplevel_state_t where
  mapped : Bool
  geometry : geometry_t
  gravity : Nat
  tiled_edges : Nat
  fullscreen : Bool
  margins : geometry_difference_t
deriving DecidableEq, Repr

/-- The default member initializers of `toplevel_state_t`: unmapped, geometry
`{100, 100, 0, 0}`, gravity `WLR_EDGE_LEFT | WLR_EDGE_TOP`, no tiled edges,
not fullscreen, zero margins. -/
def toplevel_state_t.init : toplevel_state_t :=
  ⟨false, ⟨100, 100, 0, 0⟩, WLR_EDGE_LEFT ||| WLR_EDGE_TOP, 0, false,
   geometry_difference_t.zero⟩

/-- C++ `toplevel_state_t::get_tiled_edges()`. -/
def toplevel_state_t.get_tiled_edges (s : toplevel_state_t) : Nat :=
  s.tiled_edges

/-- C++ `toplevel_state_t::set_tiled_edges(uint32_t)`. -/
def toplevel_state_t.set_tiled_edges (s : toplevel_state_t) (e : Nat) :
    toplevel_state_t :=
  { s with tiled_edges := e }

/-- C++ `wf::toplevel_t`: holds the three state copies `_current`, `_pending`
and `_committed`, exposed through the accessors below. -/
structure toplevel_t where
  _current : toplevel_state_t
  _pending : toplevel_state_t
  _committed : toplevel_state_t
deriving DecidableEq, Repr

/-- C++ `toplevel_t::current()`. -/
def toplevel_t.current (t : toplevel_t) : toplevel_state_t := t._current

/-- C++ `toplevel_t::committed()`. -/
def toplevel_t.committed (t : toplevel_t) : toplevel_state_t := t._committed

/-- C++ `toplevel_t::pending()`. -/
def toplevel_t.pending (t : toplevel_t) : toplevel_state_t := t._pending

/-- Modelled from the spec: the transaction issuer and the acknowledgment
path are external to the sources (the txn subsystem is out of scope). Per the
spec, plugins mutate fields of the pending state (modelled as an arbitrary
update function), a transaction issuer reads `pending` as of a single instant
and copies it verbatim into `committed`, and on acknowledgment with values
matching the request `committed` is copied into `current`. -/
inductive txn_event
  | mutate_pending (f : toplevel_state_t → toplevel_state_t)
  | commit
  | ack

/-- One step of the commit protocol on a toplevel. -/
def txn_step (t : toplevel_t) : txn_event → toplevel_t
  | .mutate_pending f => { t with _pending := f t._pending }
  | .commit => { t with _committed := t._pending }
  | .ack => { t with _current := t._committed }

/-- Run a sequence of commit-protocol events. -/
def txn_run (t : toplevel_t) (es : List txn_event) : toplevel_t :=
  es.foldl txn_step t

/-- C++ `pointf_t` has `double` coordinates; finite doubles are modelled as
rationals (every finite double value is a rational number, and the claims
about `round_down` concern exactly representable values). -/
structure pointf_t where
  x : ℚ
  y : ℚ
deriving DecidableEq, Repr

/-- The C++ conversion `static_cast<int>` from a floating value truncates
toward zero: floor for nonnegative values, ceiling for negative ones. -/
def int_trunc (q : ℚ) : Int :=
  if 0 ≤ q then ⌊q⌋ else ⌈q⌉

/-- C++ `pointf_t::round_down()`: `{static_cast<int>(x), static_cast<int>(y)}`. -/
def pointf_t.round_down (p : pointf_t) : point_t :=
  ⟨int_trunc p.x, int_trunc p.y⟩

end wf

/-- C1: for all integer boxes `a` and `b`, `box_add(a, box_subtract(b, a)) == b`,
with `box_add` the C++ `operator+(geometry_t, geometry_difference_t)` and
`box_subtract` the C++ `operator-(geometry_t, geometry_t)`. -/
theorem box_add_box_subtract_exact (a b : wf.geometry_t) :
    wf.box_add a (wf.box_subtract b a) = b := by
  cases a; cases b
  simp only [wf.box_add, wf.box_subtract, wf.geometry_t.mk.injEq]
  omega

/-- C7: negating a displacement twice is the identity, and adding a
displacement and then its negation to any box returns the box exactly. -/
theorem negate_involutive_and_box_add_negate
    (d : wf.geometry_difference_t) (b : wf.geometry_t) :
    wf.negate (wf.negate d) = d ∧ wf.box_add (wf.box_add b d) (wf.negate d) = b := by
  cases d; cases b
  simp only [wf.negate, wf.box_add, wf.geometry_difference_t.mk.injEq,
    wf.geometry_t.mk.injEq]
  omega

/-- C8: `box_add` computes exactly `x -= left, y -= top, width += left+right,
height += top+bottom`; on the box `(0,0,200,100)` and the displacement
`(left=10, right=10, top=5, bottom=5)` it yields `(-10,-5,220,110)`, and
`box_subtract` of that result against the original recovers `(10,10,5,5)`
(fields in source order left, right, bottom, top). -/
theorem box_add_formula_and_scenario :
    (∀ (g : wf.geometry_t) (m : wf.geometry_difference_t),
      wf.box_add g m =
        ⟨g.x - m.left, g.y - m.top, g.width + m.left + m.right,
         g.height + m.top + m.bottom⟩) ∧
    wf.box_add ⟨0, 0, 200, 100⟩ ⟨10, 10, 5, 5⟩ = ⟨-10, -5, 220, 110⟩ ∧
    wf.box_subtract (wf.box_add ⟨0, 0, 200, 100⟩ ⟨10, 10, 5, 5⟩) ⟨0, 0, 200, 100⟩ =
      ⟨10, 10, 5, 5⟩ := by
  refine ⟨fun g m => rfl, by decide, by decide⟩

/-- C2: `expand_geometry_if` applies, on each edge independently, the active
displacement's value when that edge's bit is set in the mask and the inactive
displacement's value otherwise, exactly as `box_add` would apply the selected
displacement; and expanding by `d` then by `negate d` under the same mask
(with the inactive displacement left at its zero default) returns the
original box. -/
theorem expand_geometry_if_select_and_roundtrip (g : wf.geometry_t) (e : Nat)
    (act inact d : wf.geometry_difference_t) :
    wf.expand_geometry_if g e act inact =
      wf.box_add g
        ⟨(if e &&& wf.WLR_EDGE_LEFT ≠ 0 then act.left else inact.left),
         (if e &&& wf.WLR_EDGE_RIGHT ≠ 0 then act.right else inact.right),
         (if e &&& wf.WLR_EDGE_BOTTOM ≠ 0 then act.bottom else inact.bottom),
         (if e &&& wf.WLR_EDGE_TOP ≠ 0 then act.top else inact.top)⟩ ∧
    wf.expand_geometry_if
      (wf.expand_geometry_if g e d wf.geometry_difference_t.zero)
      e (wf.negate d) wf.geometry_difference_t.zero = g := by
  cases g; cases act; cases inact; cases d
  refine ⟨?_, ?_⟩ <;>
    simp only [wf.expand_geometry_if, wf.rectangle_t.ofGeometry,
      wf.rectangle_t.toGeometry, wf.box_add, wf.negate,
      wf.geometry_difference_t.zero] <;>
    split_ifs <;>
    simp [wf.geometry_t.mk.injEq] <;>
    omega

/-- C3: `expand_geometry_by_margins` applies the margins exactly on the edges
not covered by the maximization's tiled-edge mask (the maximized edges are
unchanged, receiving the zero displacement), and `shrink_geometry_by_margins`
with the same margins and maximization is its exact inverse in both orders. -/
theorem expand_shrink_geometry_by_margins (g : wf.geometry_t)
    (m : wf.geometry_difference_t) (M : wf.maximization_t) :
    wf.expand_geometry_by_margins g m M =
      wf.box_add g
        ⟨(if M.as_tiled_edges &&& wf.WLR_EDGE_LEFT ≠ 0 then 0 else m.left),
         (if M.as_tiled_edges &&& wf.WLR_EDGE_RIGHT ≠ 0 then 0 else m.right),
         (if M.as_tiled_edges &&& wf.WLR_EDGE_BOTTOM ≠ 0 then 0 else m.bottom),
         (if M.as_tiled_edges &&& wf.WLR_EDGE_TOP ≠ 0 then 0 else m.top)⟩ ∧
    wf.shrink_geometry_by_margins (wf.expand_geometry_by_margins g m M) m M = g ∧
    wf.expand_geometry_by_margins (wf.shrink_geometry_by_margins g m M) m M = g := by
  cases g; cases m; cases M <;>
    refine ⟨?_, ?_, ?_⟩ <;>
      simp [wf.expand_geometry_by_margins, wf.shrink_geometry_by_margins,
        wf.maximization_t.as_tiled_edges, wf.expand_geometry_if,
        wf.rectangle_t.ofGeometry, wf.rectangle_t.toGeometry, wf.box_add,
        wf.negate, wf.geometry_difference_t.zero, wf.WLR_EDGE_LEFT,
        wf.WLR_EDGE_RIGHT, wf.WLR_EDGE_TOP, wf.WLR_EDGE_BOTTOM,
        wf.geometry_t.mk.injEq] <;>
      omega

/-- C9: the origin+size form and the corner form convert losslessly both
ways: both composites of the two conversions are the identity. -/
theorem rectangle_geometry_roundtrip (g : wf.geometry_t) (r : wf.rectangle_t) :
    (wf.rectangle_t.ofGeometry g).toGeometry = g ∧
    wf.rectangle_t.ofGeometry r.toGeometry = r := by
  cases g; cases r
  refine ⟨?_, ?_⟩ <;>
    simp only [wf.rectangle_t.ofGeometry, wf.rectangle_t.toGeometry,
      wf.geometry_t.mk.injEq, wf.rectangle_t.mk.injEq] <;>
    refine ⟨trivial, trivial, by omega, by omega⟩

/-- Running only pending-state mutations updates the pending copy by folding
the mutations and leaves the current and committed copies untouched. -/
theorem txn_run_mutate_list
    (fs : List (wf.toplevel_state_t → wf.toplevel_state_t)) (t : wf.toplevel_t) :
    wf.txn_run t (fs.map wf.txn_event.mutate_pending) =
      ⟨t._current, fs.foldl (fun s f => f s) t._pending, t._committed⟩ := by
  induction fs generalizing t with
  | nil => rfl
  | cons f fs ih =>
      have h := ih { t with _pending := f t._pending }
      simpa [wf.txn_run, wf.txn_step, List.foldl_cons] using h

/-- C4: after an arbitrary sequence of mutations of the pending state
followed by issuing a transaction, the committed state is exactly the pending
state as of the commit instant (the fold of the mutations, copied verbatim)
while the current state is unchanged; a subsequent acknowledgment with
matching values makes the current state equal the committed state. -/
theorem toplevel_commit_protocol (t : wf.toplevel_t)
    (fs : List (wf.toplevel_state_t → wf.toplevel_state_t)) :
    (wf.txn_run t (fs.map wf.txn_event.mutate_pending ++ [wf.txn_event.commit])).committed
        = fs.foldl (fun s f => f s) t.pending ∧
    (wf.txn_run t (fs.map wf.txn_event.mutate_pending ++ [wf.txn_event.commit])).committed
        = (wf.txn_run t (fs.map wf.txn_event.mutate_pending ++ [wf.txn_event.commit])).pending ∧
    (wf.txn_run t (fs.map wf.txn_event.mutate_pending ++ [wf.txn_event.commit])).current
        = t.current ∧
    (wf.txn_step (wf.txn_run t (fs.map wf.txn_event.mutate_pending ++ [wf.txn_event.commit]))
        wf.txn_event.ack).current
      = (wf.txn_run t (fs.map wf.txn_event.mutate_pending ++ [wf.txn_event.commit])).committed := by
  have hsplit :
      wf.txn_run t (fs.map wf.txn_event.mutate_pending ++ [wf.txn_event.commit]) =
        wf.txn_run (wf.txn_run t (fs.map wf.txn_event.mutate_pending))
          [wf.txn_event.commit] := by
    simp [wf.txn_run, List.foldl_append]
  rw [hsplit, txn_run_mutate_list]
  exact ⟨rfl, rfl, rfl, rfl⟩

/-- C6: if two boxes overlap, their intersection has positive width and
height and is contained in both; if they do not overlap, the intersection
has zero width and zero height. -/
theorem geometry_intersection_correct (a b : wf.geometry_t) :
    (wf.geometry_overlaps a b →
      0 < (wf.geometry_intersection a b).width ∧
      0 < (wf.geometry_intersection a b).height ∧
      wf.contains_box a (wf.geometry_intersection a b) ∧
      wf.contains_box b (wf.geometry_intersection a b)) ∧
    (¬wf.geometry_overlaps a b →
      (wf.geometry_intersection a b).width = 0 ∧
      (wf.geometry_intersection a b).height = 0) := by
  obtain ⟨ax, ay, aw, ah⟩ := a
  obtain ⟨bx, by_, bw, bh⟩ := b
  constructor
  · intro h
    have hov : max ax bx < min (ax + aw) (bx + bw) ∧
        max ay by_ < min (ay + ah) (by_ + bh) := h
    have hval : wf.geometry_intersection ⟨ax, ay, aw, ah⟩ ⟨bx, by_, bw, bh⟩ =
        ⟨max ax bx, max ay by_, min (ax + aw) (bx + bw) - max ax bx,
         min (ay + ah) (by_ + bh) - max ay by_⟩ := by
      simp only [wf.geometry_intersection]
      rw [if_pos hov]
    rw [hval]
    simp only [wf.contains_box]
    obtain ⟨h1, h2⟩ := hov
    omega
  · intro h
    have hnc : ¬(max ax bx < min (ax + aw) (bx + bw) ∧
        max ay by_ < min (ay + ah) (by_ + bh)) := fun hcon => h hcon
    have hval : wf.geometry_intersection ⟨ax, ay, aw, ah⟩ ⟨bx, by_, bw, bh⟩ =
        ⟨0, 0, 0, 0⟩ := by
      simp only [wf.geometry_intersection]
      rw [if_neg hnc]
    rw [hval]
    exact ⟨rfl, rfl⟩

/-- Witness for C6 at concrete inputs: the boxes `(0,0,2,2)` and `(1,1,2,2)`
overlap and their intersection is positive and contained in both; the boxes
`(0,0,2,2)` and `(5,5,1,1)` do not overlap and the intersection is empty. -/
theorem geometry_intersection_correct_witness :
    wf.geometry_overlaps ⟨0, 0, 2, 2⟩ ⟨1, 1, 2, 2⟩ ∧
    (0 < (wf.geometry_intersection ⟨0, 0, 2, 2⟩ ⟨1, 1, 2, 2⟩).width ∧
     0 < (wf.geometry_intersection ⟨0, 0, 2, 2⟩ ⟨1, 1, 2, 2⟩).height ∧
     wf.contains_box ⟨0, 0, 2, 2⟩ (wf.geometry_intersection ⟨0, 0, 2, 2⟩ ⟨1, 1, 2, 2⟩) ∧
     wf.contains_box ⟨1, 1, 2, 2⟩ (wf.geometry_intersection ⟨0, 0, 2, 2⟩ ⟨1, 1, 2, 2⟩)) ∧
    ¬wf.geometry_overlaps ⟨0, 0, 2, 2⟩ ⟨5, 5, 1, 1⟩ ∧
    ((wf.geometry_intersection ⟨0, 0, 2, 2⟩ ⟨5, 5, 1, 1⟩).width = 0 ∧
     (wf.geometry_intersection ⟨0, 0, 2, 2⟩ ⟨5, 5, 1, 1⟩).height = 0) :=
  ⟨by decide,
   (geometry_intersection_correct ⟨0, 0, 2, 2⟩ ⟨1, 1, 2, 2⟩).1 (by decide),
   by decide,
   (geometry_intersection_correct ⟨0, 0, 2, 2⟩ ⟨5, 5, 1, 1⟩).2 (by decide)⟩

/-- C10: on a negative non-integral coordinate, `round_down` truncates toward
zero (it computes the ceiling there, as the C cast does), so its result is
strictly greater than the mathematical floor, despite the function's name. -/
theorem round_down_truncates_toward_zero (p : wf.pointf_t)
    (hx : p.x < 0) (hnx : (⌊p.x⌋ : ℚ) ≠ p.x) :
    (wf.pointf_t.round_down p).x = ⌈p.x⌉ ∧ ⌊p.x⌋ < (wf.pointf_t.round_down p).x := by
  have hne : ¬(0 : ℚ) ≤ p.x := not_le.mpr hx
  have h1 : (⌊p.x⌋ : ℚ) < p.x := lt_of_le_of_ne (Int.floor_le _) hnx
  have h2 : p.x ≤ (⌈p.x⌉ : ℚ) := Int.le_ceil _
  have h4 : ⌊p.x⌋ < ⌈p.x⌉ := by exact_mod_cast lt_of_lt_of_le h1 h2
  constructor
  · simp [wf.pointf_t.round_down, wf.int_trunc, hne]
  · simpa [wf.pointf_t.round_down, wf.int_trunc, hne] using h4

/-- Witness for C10 at `x = -2.5`: `round_down` yields `-2`, strictly greater
than the floor `-3`. -/
theorem round_down_truncates_toward_zero_witness :
    ((-5 / 2 : ℚ) < 0 ∧ ((⌊(-5 / 2 : ℚ)⌋ : ℚ) ≠ (-5 / 2 : ℚ))) ∧
    (wf.pointf_t.round_down ⟨-5 / 2, 0⟩).x = -2 ∧ ⌊(-5 / 2 : ℚ)⌋ = -3 := by
  have hfloor : ⌊(-5 / 2 : ℚ)⌋ = -3 := by
    rw [Int.floor_eq_iff]; norm_num
  have hceil : ⌈(-5 / 2 : ℚ)⌉ = -2 := by
    rw [Int.ceil_eq_iff]; norm_num
  have h := round_down_truncates_toward_zero ⟨-5 / 2, 0⟩ (by norm_num)
    (by rw [show (⌊(-5 / 2 : ℚ)⌋ : ℚ) = ((-3 : Int) : ℚ) from by rw [hfloor]]; norm_num)
  exact ⟨⟨by norm_num, by rw [show (⌊(-5 / 2 : ℚ)⌋ : ℚ) = ((-3 : Int) : ℚ) from by rw [hfloor]]; norm_num⟩,
    by rw [h.1]; exact hceil, hfloor⟩
